import Mathlib

/-!
Verification of the MCP host-communication layer (`src/ui/hooks/useMcpHost.ts`)
of the mcp-svg todo-list app.  The hook is embedded as a deterministic
state-transition system: a `HostState` records the React refs/state of the hook
(`isReady`, the request-id counter, the pending-request map, the scheduled
timeout timers) together with an observable `trace` of every side effect the
hook performs (postMessage sends, DOM writes, domain-callback invocations,
promise settlements).  Events driving the system are inbound host messages,
timer expiries, and `callTool` invocations by the embedding application.
-/

/-- JSON-like runtime values carried in message payloads (`params`, `result`,
`error` fields).  A JavaScript `undefined` is modelled as `Option.none` at the
use sites, not as a `Json` constructor. -/
inductive Json where
  | null : Json
  | bool (b : Bool) : Json
  | num (n : Int) : Json
  | str (s : String) : Json
  | arr (elems : List Json) : Json
  | obj (fields : List (String × Json)) : Json

/-- JavaScript truthiness of a defined value: `null`, `false`, `0` and `""` are
falsy; arrays and objects are always truthy. -/
def Json.truthy : Json → Bool
  | .null => false
  | .bool b => b
  | .num n => n != 0
  | .str s => s != ""
  | .arr _ => true
  | .obj _ => true

/-- Property access `v.k` in JavaScript: defined only on objects that carry the
field; access on any other value yields `undefined` (`none`). -/
def Json.getField : Json → String → Option Json
  | .obj fields, k => (fields.find? (fun f => f.1 == k)).map (fun f => f.2)
  | _, _ => none

/-- `Object.entries` of a value, as used on the style-variable mapping; only an
object contributes entries. -/
def Json.entries : Json → List (String × Json)
  | .obj fields => fields
  | _ => []

/-- The JavaScript `a || b` defaulting idiom on a possibly-undefined value:
yields `a` when `a` is defined and truthy, else `b`. -/
def jsOrElse (a : Option Json) (b : Json) : Json :=
  match a with
  | some v => if v.truthy then v else b
  | none => b

/-- `data.error.message || "Unknown error"`: the rejection message taken from a
host error object. -/
def errMessage (e : Json) : Json :=
  jsOrElse (e.getField "message") (Json.str "Unknown error")

/-- `theme === "light" ? "light" : "dark"`: the normalized theme recorded on
the document and reported to `onThemeChange`. -/
def normTheme : Json → String
  | .str s => if s = "light" then "light" else "dark"
  | _ => "dark"

/-- An envelope posted to the host through `window.parent.postMessage`.  The
`jsonrpc: "2.0"` tag, constant on every send, is left implicit. -/
inductive OutMessage where
  | request (id : Int) (method : String) (params : Json) : OutMessage
  | response (id : Option Int) (result : Json) : OutMessage
  | toHost (method : String) (params : Json) : OutMessage

/-- Terminal outcome of a pending request's promise: `resolve(data.result)`,
`reject(new Error(data.error.message || "Unknown error"))`, or
`reject(new Error("Request timeout"))`. -/
inductive Outcome where
  | resolved (result : Option Json) : Outcome
  | rejectedError (msg : Json) : Outcome
  | rejectedTimeout : Outcome

/-- One observable side effect of the hook, in the order performed:
DOM writes (`document.documentElement.setAttribute("data-theme", v)` /
`style.setProperty k v`), invocations of the configured domain callbacks,
posted envelopes, promise settlements, and the `setIsReady` state update. -/
inductive TraceEvent where
  | setThemeAttr (v : String) : TraceEvent
  | setStyleProp (k : String) (v : Json) : TraceEvent
  | cbToolInput (args : Json) : TraceEvent
  | cbToolResult (payload : Option Json) : TraceEvent
  | cbThemeChange (v : String) : TraceEvent
  | cbAppState (st : Json) : TraceEvent
  | cbTeardown : TraceEvent
  | post (m : OutMessage) : TraceEvent
  | outcome (id : Int) (o : Outcome) : TraceEvent
  | setReady (b : Bool) : TraceEvent

/-- The hook's configuration (`UseMcpHostConfig`): client identification plus
which optional callbacks are registered.  `teardownThrows` records whether the
registered `onTeardown` promise rejects when awaited. -/
structure Config where
  name : String
  version : String
  hasToolInput : Bool
  hasToolResult : Bool
  hasThemeChange : Bool
  hasTeardown : Bool
  teardownThrows : Bool
  hasAppState : Bool

/-- An inbound `event.data` payload that passed the
`!data || typeof data !== "object"` guard, restricted to the fields the
handler reads.  Absent fields are `none` (JavaScript `undefined`). -/
structure MessageData where
  id : Option Int := none
  method : Option String := none
  params : Option Json := none
  result : Option Json := none
  error : Option Json := none

/-- The hook's mutable state, plus the observable `trace`:
`isReady` (React state), `nextRequestId` (`requestIdRef`), `pending` (ids in
`pendingRequestsRef`), `callToolIds` (pending ids whose promise continuation
belongs to `callTool`), `timers` (scheduled `setTimeout` expiries, id and
absolute deadline), and the current clock `now`. -/
structure HostState where
  isReady : Bool
  nextRequestId : Int
  pending : List Int
  callToolIds : List Int
  timers : List (Int × Nat)
  now : Nat
  trace : List TraceEvent

/-- Initial hook state: not ready, request ids start at 1, nothing pending. -/
def initState : HostState :=
  { isReady := false, nextRequestId := 1, pending := [], callToolIds := [],
    timers := [], now := 0, trace := [] }

/-- Record one side effect. -/
def emit (s : HostState) (e : TraceEvent) : HostState :=
  { s with trace := s.trace ++ [e] }

/-- The `setTimeout` delay of `sendRequest`: 30000 ms. -/
def timeoutMs : Nat := 30000

/-- Side effects of `applyTheme(theme)`: set the `data-theme` document
attribute to the normalized theme, then invoke `onThemeChange` with the same
normalized value when registered. -/
def themeTrail (cfg : Config) (theme : Json) : List TraceEvent :=
  [.setThemeAttr (normTheme theme)] ++
    (if cfg.hasThemeChange then [.cbThemeChange (normTheme theme)] else [])

/-- `applyTheme` as a state transformer. -/
def applyTheme (cfg : Config) (s : HostState) (theme : Json) : HostState :=
  { s with trace := s.trace ++ themeTrail cfg theme }

/-- Side effects of `applyStyleVariables(variables)`: the loop
`for (k, v) of Object.entries(variables): if (v) setProperty(k, v)` sets, in
entry order, exactly the properties whose value is truthy. -/
def styleTrail (vars : List (String × Json)) : List TraceEvent :=
  (vars.filter (fun kv => kv.2.truthy)).map (fun kv => .setStyleProp kv.1 kv.2)

/-- `applyStyleVariables` as a state transformer. -/
def applyStyleVariables (s : HostState) (vars : List (String × Json)) : HostState :=
  { s with trace := s.trace ++ styleTrail vars }

/-- Synchronous part of `sendRequest(method, params)`: allocate
`id = requestIdRef.current++`, register the pending record, post the request
envelope, and schedule the 30-second timeout.  `fromCallTool` marks whether
the promise continuation is `callTool`'s (which forwards the result to
`onToolResult`). -/
def sendRequestStep (s : HostState) (method : String) (params : Json)
    (fromCallTool : Bool) : HostState :=
  let i := s.nextRequestId
  { s with
    nextRequestId := i + 1,
    pending := s.pending ++ [i],
    callToolIds := if fromCallTool then s.callToolIds ++ [i] else s.callToolIds,
    timers := s.timers ++ [(i, s.now + timeoutMs)],
    trace := s.trace ++ [.post (.request i method params)] }

/-- The `params` of the `tools/call` envelope built by `callTool`. -/
def toolCallParams (toolName : String) (args : Json) : Json :=
  Json.obj [("name", Json.str toolName), ("arguments", args)]

/-- Synchronous part of `callTool(toolName, args)`: send a `tools/call`
request (no readiness check appears in the source). -/
def callToolStep (s : HostState) (toolName : String) (args : Json) : HostState :=
  sendRequestStep s "tools/call" (toolCallParams toolName args) true

/-- The timeout callback for request `id`:
`if (pending.has(id)) { pending.delete(id); reject(new Error("Request timeout")) }`. -/
def timeoutFire (s : HostState) (i : Int) : HostState :=
  if s.pending.contains i then
    { s with
      pending := s.pending.filter (fun x => x != i),
      trace := s.trace ++ [.outcome i .rejectedTimeout] }
  else s

/-- Advance the clock by `dt` and fire, in scheduling order, every timeout
whose deadline has been reached. -/
def elapseStep (s : HostState) (dt : Nat) : HostState :=
  let now2 := s.now + dt
  let due := s.timers.filter (fun t => t.2 ≤ now2)
  let rest := s.timers.filter (fun t => ¬ t.2 ≤ now2)
  (due.map Prod.fst).foldl timeoutFire { s with now := now2, timers := rest }

/-- Resolution path of a matched response: `pending.resolve(data.result)`;
when the pending request was issued by `callTool` and `onToolResult` is
registered, the continuation then forwards the same result to `onToolResult`. -/
def resolveWith (cfg : Config) (s : HostState) (i : Int) (result : Option Json) :
    HostState :=
  let s2 := emit s (.outcome i (.resolved result))
  if s.callToolIds.contains i && cfg.hasToolResult then
    emit s2 (.cbToolResult result)
  else s2

/-- The JSON-RPC response branch of `handleMessage`: look up `data.id` in the
pending map; when absent the message is dropped; when present the record is
deleted and the promise rejected (truthy `data.error`) or resolved. -/
def handleResponse (cfg : Config) (s : HostState) (i : Int)
    (result error : Option Json) : HostState :=
  if s.pending.contains i then
    let s1 := { s with pending := s.pending.filter (fun x => x != i) }
    match error with
    | some e =>
      if e.truthy then emit s1 (.outcome i (.rejectedError (errMessage e)))
      else resolveWith cfg s1 i result
    | none => resolveWith cfg s1 i result
  else s

/-- The handshake-response payload: fixed protocol version, empty capability
set, and the configured client name/version. -/
def initResult (cfg : Config) : Json :=
  Json.obj
    [("protocolVersion", Json.str "2025-06-18"),
     ("capabilities", Json.obj []),
     ("clientInfo", Json.obj [("name", Json.str cfg.name), ("version", Json.str cfg.version)])]

/-- The `ui/initialize` branch: apply host-context side effects (theme, style
variables, `onAppState`), post the capabilities response correlated to the
request id, post the `ui/notifications/initialized` notification, and set
`isReady`. -/
def handleInit (cfg : Config) (s : HostState) (data : MessageData) : HostState :=
  let hostContext := data.params.bind (fun p => p.getField "hostContext")
  let s := match hostContext.bind (fun h => h.getField "theme") with
    | some t => if t.truthy then applyTheme cfg s t else s
    | none => s
  let s := match (hostContext.bind (fun h => h.getField "styles")).bind
      (fun st => st.getField "variables") with
    | some v => if v.truthy then applyStyleVariables s v.entries else s
    | none => s
  let s := match hostContext.bind (fun h => h.getField "appState") with
    | some a => if a.truthy && cfg.hasAppState then emit s (.cbAppState a) else s
    | none => s
  let s := emit s (.post (.response data.id (initResult cfg)))
  let s := emit s (.post (.toHost "ui/notifications/initialized" (Json.obj [])))
  let s := emit s (.setReady true)
  { s with isReady := true }

/-- The `ui/notifications/host-context-changed` branch: re-apply theme and
style-variable side effects from `data.params`. -/
def handleContextChanged (cfg : Config) (s : HostState) (data : MessageData) :
    HostState :=
  let s := match data.params.bind (fun p => p.getField "theme") with
    | some t => if t.truthy then applyTheme cfg s t else s
    | none => s
  match (data.params.bind (fun p => p.getField "styles")).bind
      (fun st => st.getField "variables") with
  | some v => if v.truthy then applyStyleVariables s v.entries else s
  | none => s

/-- The `ui/resource-teardown` branch: await the registered `onTeardown` hook
inside `try`, and post the empty success response whether the hook fulfils
(the `try` continuation) or rejects (the `catch` block). -/
def handleTeardownReq (cfg : Config) (s : HostState) (i : Int) : HostState :=
  let s := if cfg.hasTeardown then emit s .cbTeardown else s
  if cfg.hasTeardown && cfg.teardownThrows then
    emit s (.post (.response (some i) (Json.obj [])))
  else
    emit s (.post (.response (some i) (Json.obj [])))

/-- `data.id !== undefined && (data.result !== undefined || data.error !== undefined)`. -/
def isResponseShape (data : MessageData) : Bool :=
  data.id.isSome && (data.result.isSome || data.error.isSome)

/-- The inbound message handler, branch for branch as in the source: JSON-RPC
responses first, then `ui/initialize`, the three notification methods,
`ui/resource-teardown`, and a final logging fall-through with no effect. -/
def handleMessage (cfg : Config) (s : HostState) (data : MessageData) : HostState :=
  if isResponseShape data then
    match data.id with
    | some i => handleResponse cfg s i data.result data.error
    | none => s
  else if data.method = some "ui/initialize" then
    handleInit cfg s data
  else if data.method = some "ui/notifications/tool-input" then
    if cfg.hasToolInput then
      emit s (.cbToolInput (jsOrElse (data.params.bind (fun p => p.getField "arguments"))
        (Json.obj [])))
    else s
  else if data.method = some "ui/notifications/tool-result" then
    if cfg.hasToolResult then
      emit s (.cbToolResult (some (jsOrElse data.params (Json.obj []))))
    else s
  else if data.method = some "ui/notifications/host-context-changed" then
    handleContextChanged cfg s data
  else if data.method = some "ui/resource-teardown" && data.id.isSome then
    match data.id with
    | some i => handleTeardownReq cfg s i
    | none => s
  else s

/-- Events driving the hook: an inbound `message` event (`none` is a payload
failing the object guard), the passage of time (firing due timeouts), and a
`callTool` invocation by the embedding application. -/
inductive Event where
  | inbound (data : Option MessageData) : Event
  | elapse (dt : Nat) : Event
  | callToolReq (toolName : String) (args : Json) : Event

/-- One step of the transition system. -/
def step (cfg : Config) (s : HostState) (e : Event) : HostState :=
  match e with
  | .inbound none => s
  | .inbound (some data) => handleMessage cfg s data
  | .elapse dt => elapseStep s dt
  | .callToolReq n a => callToolStep s n a

/-- Run a sequence of events. -/
def run (cfg : Config) (s : HostState) (es : List Event) : HostState :=
  es.foldl (step cfg) s

/-- Number of settlement events recorded for request id `i`. -/
def countOutcomes (tr : List TraceEvent) (i : Int) : Nat :=
  tr.countP (fun e => match e with | .outcome j _ => j == i | _ => false)


/-- `settledCount s i`: settlement events already recorded for id `i` plus the
multiplicity of `i` in the pending map. -/
def settledCount (s : HostState) (i : Int) : Nat :=
  countOutcomes s.trace i + s.pending.count i

/-- Correlator invariant: every id is settled-or-pending at most once, and ids
the counter has not yet handed out are neither settled nor pending. -/
def CorrInv (s : HostState) : Prop :=
  ∀ i : Int, settledCount s i ≤ 1 ∧ (s.nextRequestId ≤ i → settledCount s i = 0)

/-- Trace events other than promise settlements. -/
def nonSettling (e : TraceEvent) : Bool :=
  match e with
  | .outcome _ _ => false
  | _ => true

lemma countOutcomes_append (a b : List TraceEvent) (i : Int) :
    countOutcomes (a ++ b) i = countOutcomes a i + countOutcomes b i := by
  simp [countOutcomes]

lemma countOutcomes_single_outcome (j : Int) (o : Outcome) (i : Int) :
    countOutcomes [.outcome j o] i = if j == i then 1 else 0 := by
  simp [countOutcomes, List.countP_singleton]

lemma countOutcomes_single_ns (e : TraceEvent) (he : nonSettling e = true) (i : Int) :
    countOutcomes [e] i = 0 := by
  cases e <;> simp [countOutcomes, List.countP_singleton] <;> simp [nonSettling] at he

lemma countOutcomes_themeTrail (cfg : Config) (t : Json) (i : Int) :
    countOutcomes (themeTrail cfg t) i = 0 := by
  cases hc : cfg.hasThemeChange <;>
    simp [themeTrail, hc, countOutcomes, List.countP_cons]

lemma countOutcomes_styleTrail (vars : List (String × Json)) (i : Int) :
    countOutcomes (styleTrail vars) i = 0 := by
  rw [countOutcomes, styleTrail, List.countP_map]
  exact List.countP_eq_zero.mpr (fun a _ => by simp [Function.comp])

lemma count_filter_ne_self (l : List Int) (j : Int) :
    (l.filter (fun x => x != j)).count j = 0 := by
  rw [List.count_eq_zero]
  intro hmem
  rcases List.mem_filter.mp hmem with ⟨_, hx⟩
  simp at hx

lemma count_filter_ne_other (l : List Int) (i j : Int) (h : i ≠ j) :
    (l.filter (fun x => x != j)).count i = l.count i :=
  List.count_filter (by simp [h])

/-- Settling a pending id removes it from the map and adds exactly one
settlement event, preserving the correlator invariant. -/
lemma inv_settle (s : HostState) (j : Int) (l : List TraceEvent)
    (hl : ∀ i, countOutcomes l i = if j == i then 1 else 0)
    (hmem : j ∈ s.pending) (h : CorrInv s) :
    CorrInv { s with pending := s.pending.filter (fun x => x != j),
                     trace := s.trace ++ l } := by
  intro i
  have hcount : 1 ≤ s.pending.count j := List.one_le_count_iff.mpr hmem
  by_cases hij : j = i
  · subst hij
    have hj1 := (h j).1
    have hj2 := (h j).2
    have hold : settledCount s j = countOutcomes s.trace j + s.pending.count j := rfl
    have hnew : settledCount
        { s with pending := s.pending.filter (fun x => x != j),
                 trace := s.trace ++ l } j = countOutcomes s.trace j + 1 := by
      simp [settledCount, countOutcomes_append, hl, count_filter_ne_self]
    constructor
    · rw [hnew]; rw [hold] at hj1; omega
    · intro hle
      have h0 := hj2 hle
      rw [hold] at h0
      omega
  · have hi := h i
    have hnew : settledCount
        { s with pending := s.pending.filter (fun x => x != j),
                 trace := s.trace ++ l } i = settledCount s i := by
      have hne : (j == i) = false := by simp [hij]
      simp [settledCount, countOutcomes_append, hl, hne,
        count_filter_ne_other s.pending i j (fun hh => hij hh.symm)]
    rw [hnew]
    exact hi

lemma inv_emit_ns (s : HostState) (e : TraceEvent) (he : nonSettling e = true)
    (h : CorrInv s) : CorrInv (emit s e) := by
  intro i
  have heq : settledCount (emit s e) i = settledCount s i := by
    simp [settledCount, emit, countOutcomes_append, countOutcomes_single_ns e he]
  rw [heq]
  exact h i

lemma inv_applyTheme (cfg : Config) (s : HostState) (t : Json) (h : CorrInv s) :
    CorrInv (applyTheme cfg s t) := by
  intro i
  have heq : settledCount (applyTheme cfg s t) i = settledCount s i := by
    simp [settledCount, applyTheme, countOutcomes_append, countOutcomes_themeTrail]
  rw [heq]
  exact h i

lemma inv_applyStyleVariables (s : HostState) (vars : List (String × Json))
    (h : CorrInv s) : CorrInv (applyStyleVariables s vars) := by
  intro i
  have heq : settledCount (applyStyleVariables s vars) i = settledCount s i := by
    simp [settledCount, applyStyleVariables, countOutcomes_append, countOutcomes_styleTrail]
  rw [heq]
  exact h i

lemma inv_record_ready (s : HostState) (b : Bool) (h : CorrInv s) :
    CorrInv { s with isReady := b } := fun i => h i

lemma resolveWith_eq (cfg : Config) (s : HostState) (i : Int) (r : Option Json) :
    resolveWith cfg s i r =
      { s with trace := s.trace ++
          ([.outcome i (.resolved r)] ++
           (if s.callToolIds.contains i && cfg.hasToolResult then
              [.cbToolResult r] else [])) } := by
  unfold resolveWith
  split <;> simp_all [emit]

lemma inv_handleResponse (cfg : Config) (s : HostState) (j : Int)
    (r e : Option Json) (h : CorrInv s) : CorrInv (handleResponse cfg s j r e) := by
  unfold handleResponse
  split
  · rename_i hc
    have hmem : j ∈ s.pending := by simpa using hc
    have hresolve : CorrInv (resolveWith cfg
        { s with pending := s.pending.filter (fun x => x != j) } j r) := by
      rw [resolveWith_eq]
      refine inv_settle s j _ (fun i => ?_) hmem h
      rcases hct : ({ s with pending := s.pending.filter (fun x => x != j) }
          : HostState).callToolIds.contains j && cfg.hasToolResult with _ | _ <;>
        simp [hct, countOutcomes, List.countP_cons]
    split
    · split
      · exact inv_settle s j _
          (fun i => countOutcomes_single_outcome j _ i) hmem h
      · exact hresolve
    · exact hresolve
  · exact h

lemma inv_timeoutFire (s : HostState) (j : Int) (h : CorrInv s) :
    CorrInv (timeoutFire s j) := by
  unfold timeoutFire
  split
  · rename_i hc
    exact inv_settle s j _ (fun i => countOutcomes_single_outcome j _ i)
      (by simpa using hc) h
  · exact h

lemma inv_foldl_timeoutFire (l : List Int) (s : HostState) (h : CorrInv s) :
    CorrInv (l.foldl timeoutFire s) := by
  induction l generalizing s with
  | nil => exact h
  | cons a t ih => exact ih _ (inv_timeoutFire s a h)

lemma inv_elapseStep (s : HostState) (dt : Nat) (h : CorrInv s) :
    CorrInv (elapseStep s dt) := by
  unfold elapseStep
  exact inv_foldl_timeoutFire _ _ (fun i => h i)

lemma inv_sendRequestStep (s : HostState) (m : String) (p : Json) (b : Bool)
    (h : CorrInv s) : CorrInv (sendRequestStep s m p b) := by
  intro i
  have hi := h i
  have hm := (h s.nextRequestId).2 (le_refl _)
  have he : settledCount (sendRequestStep s m p b) i
      = settledCount s i + (if s.nextRequestId == i then 1 else 0) := by
    simp only [sendRequestStep, settledCount, countOutcomes_append,
      List.count_append, List.count_singleton]
    have : countOutcomes [.post (.request s.nextRequestId m p)] i = 0 :=
      countOutcomes_single_ns (.post (.request s.nextRequestId m p)) rfl i
    omega
  have hn : (sendRequestStep s m p b).nextRequestId = s.nextRequestId + 1 := rfl
  constructor
  · by_cases hin : s.nextRequestId = i
    · have h0 : settledCount s i = 0 := hin ▸ hm
      rw [he, h0, hin]
      simp
    · have : (s.nextRequestId == i) = false := by simp [hin]
      rw [he, this]
      simpa using hi.1
  · intro hle
    rw [hn] at hle
    have hlt : s.nextRequestId ≤ i := by omega
    have h0 := hi.2 hlt
    have hne : (s.nextRequestId == i) = false := by
      have : s.nextRequestId ≠ i := by omega
      simp [this]
    rw [he, hne, h0]
    simp

lemma inv_handleInit (cfg : Config) (s : HostState) (data : MessageData)
    (h : CorrInv s) : CorrInv (handleInit cfg s data) := by
  unfold handleInit
  dsimp only
  apply inv_record_ready
  apply inv_emit_ns _ _ (by rfl)
  apply inv_emit_ns _ _ (by rfl)
  apply inv_emit_ns _ _ (by rfl)
  repeat' first
  | apply inv_emit_ns _ _ (by rfl)
  | apply inv_applyStyleVariables
  | apply inv_applyTheme
  | split
  all_goals exact h

lemma inv_handleContextChanged (cfg : Config) (s : HostState) (data : MessageData)
    (h : CorrInv s) : CorrInv (handleContextChanged cfg s data) := by
  unfold handleContextChanged
  dsimp only
  repeat' first
  | apply inv_applyStyleVariables
  | apply inv_applyTheme
  | split
  all_goals exact h

lemma inv_handleTeardownReq (cfg : Config) (s : HostState) (i : Int)
    (h : CorrInv s) : CorrInv (handleTeardownReq cfg s i) := by
  unfold handleTeardownReq
  dsimp only
  repeat' first
  | apply inv_emit_ns _ _ (by rfl)
  | split
  all_goals exact h

lemma inv_handleMessage (cfg : Config) (s : HostState) (data : MessageData)
    (h : CorrInv s) : CorrInv (handleMessage cfg s data) := by
  unfold handleMessage
  repeat' first
  | exact inv_handleResponse cfg s _ _ _ h
  | exact inv_handleInit cfg s data h
  | exact inv_handleContextChanged cfg s data h
  | exact inv_handleTeardownReq cfg s _ h
  | exact inv_emit_ns _ _ (by rfl) h
  | exact h
  | split

lemma inv_step (cfg : Config) (s : HostState) (e : Event) (h : CorrInv s) :
    CorrInv (step cfg s e) := by
  cases e with
  | inbound d =>
    cases d with
    | none => exact h
    | some data => exact inv_handleMessage cfg s data h
  | elapse dt => exact inv_elapseStep s dt h
  | callToolReq n a =>
    unfold step callToolStep
    exact inv_sendRequestStep s _ _ _ h

lemma inv_run (cfg : Config) (es : List Event) :
    ∀ s : HostState, CorrInv s → CorrInv (run cfg s es) := by
  induction es with
  | nil => intro s h; exact h
  | cons e t ih =>
    intro s h
    exact ih _ (inv_step cfg s e h)

lemma inv_initState : CorrInv initState := by
  intro i
  simp [settledCount, initState, countOutcomes]

/-- Claim C2: over any sequence of inbound responses, timer expiries, and
further events, each request id reaches at most one terminal outcome — at most
one settlement event (`resolve`, host-error `reject`, or timeout `reject`)
ever appears in the trace for a given id; once settled the id is out of the
pending map, so later responses or timer firings for it cannot settle it
again. -/
theorem C2_settle_at_most_once (cfg : Config) (es : List Event) (i : Int) :
    countOutcomes (run cfg initState es).trace i ≤ 1 := by
  have h := (inv_run cfg es initState inv_initState i).1
  have hle : countOutcomes (run cfg initState es).trace i
      ≤ settledCount (run cfg initState es) i := Nat.le_add_right _ _
  omega

lemma truthy_obj (fields : List (String × Json)) : (Json.obj fields).truthy = true := rfl

lemma contains_filter_ne (l : List Int) (i : Int) :
    (l.filter (fun x => x != i)).contains i = false := by
  rw [Bool.eq_false_iff]
  intro hcon
  have hmem : i ∈ l.filter (fun x => x != i) := by simpa using hcon
  rcases List.mem_filter.mp hmem with ⟨_, hx⟩
  simp at hx

/-- A response-shaped or shapeless inbound message whose id is not pending
leaves the state untouched. -/
lemma inbound_settled_noop (cfg : Config) (s : HostState) (i : Int)
    (r e : Option Json) (hnp : s.pending.contains i = false) :
    handleMessage cfg s { id := some i, result := r, error := e } = s := by
  unfold handleMessage handleResponse
  have hmem : i ∉ s.pending := by simpa using hnp
  rcases r with _ | rv <;> rcases e with _ | ev <;> simp [isResponseShape, hnp, hmem]

/-- A concrete configuration with every callback registered; the teardown hook
fulfils. -/
def cfgA : Config :=
  { name := "todo-ui", version := "1.0.0", hasToolInput := true,
    hasToolResult := true, hasThemeChange := true, hasTeardown := true,
    teardownThrows := false, hasAppState := true }

/-- Like `cfgA`, but the registered teardown hook rejects. -/
def cfgThrow : Config := { cfgA with teardownThrows := true }

/-- State after one `callTool` from the initial state: request id 1 pending. -/
def sPend : HostState := step cfgA initState (.callToolReq "todo_list" (Json.obj []))

/-- Claim C1 counterexample: from the initial (not Ready) state, a `callTool`
invocation immediately posts the `tools/call` request envelope to the host —
the source's `callTool` has no readiness check, so the claimed "never sent
while not Ready" is false. -/
theorem C1_counterexample :
    initState.isReady = false ∧
    (step cfgA initState (.callToolReq "todo_add"
        (Json.obj [("text", Json.str "milk")]))).isReady = false ∧
    (step cfgA initState (.callToolReq "todo_add"
        (Json.obj [("text", Json.str "milk")]))).trace
      = [.post (.request 1 "tools/call"
          (Json.obj [("name", Json.str "todo_add"),
                     ("arguments", Json.obj [("text", Json.str "milk")])]))] :=
  ⟨rfl, rfl, rfl⟩

/-- Claim C1 (amended): `callTool` performs no readiness gating — invoked in
any state, including before `ui/initialize` has been handled, it immediately
posts the `tools/call` request envelope; readiness gating is left to the
caller via the exposed `isReady` flag. -/
theorem C1_amended_sends_while_not_ready (cfg : Config) (s : HostState)
    (n : String) (a : Json) (h : s.isReady = false) :
    (step cfg s (.callToolReq n a)).isReady = false ∧
    (step cfg s (.callToolReq n a)).trace
      = s.trace ++ [.post (.request s.nextRequestId "tools/call" (toolCallParams n a))] :=
  ⟨h, rfl⟩

theorem C1_amended_witness :
    initState.isReady = false ∧
    ((step cfgA initState (.callToolReq "todo_add" (Json.obj []))).isReady = false ∧
     (step cfgA initState (.callToolReq "todo_add" (Json.obj []))).trace
       = initState.trace ++ [.post (.request initState.nextRequestId "tools/call"
           (toolCallParams "todo_add" (Json.obj [])))]) :=
  ⟨rfl, C1_amended_sends_while_not_ready cfgA initState "todo_add" (Json.obj []) rfl⟩

/-- Claim C4: an inbound response envelope whose id is not in the pending map
has no observable effect — the handler returns with the state (pending map,
readiness, trace of callbacks and sends) entirely unchanged. -/
theorem C4_unmatched_response_no_effect (cfg : Config) (s : HostState)
    (data : MessageData) (i : Int) (hid : data.id = some i)
    (hshape : data.result.isSome = true ∨ data.error.isSome = true)
    (hnp : s.pending.contains i = false) :
    handleMessage cfg s data = s := by
  unfold handleMessage handleResponse
  have hresp : isResponseShape data = true := by
    rcases hshape with h | h <;> simp [isResponseShape, hid, h]
  have hmem : i ∉ s.pending := by simpa using hnp
  simp [hresp, hid, hnp, hmem]

theorem C4_unmatched_witness :
    initState.pending.contains 5 = false ∧
    handleMessage cfgA initState
      { id := some 5, result := some (Json.str "late") } = initState :=
  ⟨rfl, C4_unmatched_response_no_effect cfgA initState
    { id := some 5, result := some (Json.str "late") } 5 rfl (Or.inl rfl) rfl⟩

/-- Claim C10: a response matching a pending id whose `error` is truthy
rejects the request (even when a `result` field is also present), and the
rejection message is `error.message` when that field is present and truthy,
else the fixed string "Unknown error". -/
theorem C10_error_rejects (cfg : Config) (s : HostState) (i : Int)
    (r : Option Json) (e : Json) (hp : s.pending.contains i = true)
    (he : e.truthy = true) :
    handleMessage cfg s { id := some i, result := r, error := some e }
      = { s with pending := s.pending.filter (fun x => x != i),
                 trace := s.trace ++
                   [.outcome i (.rejectedError (jsOrElse (e.getField "message")
                      (Json.str "Unknown error")))] } := by
  unfold handleMessage handleResponse
  have hmem : i ∈ s.pending := by simpa using hp
  simp [isResponseShape, hp, hmem, he, errMessage, emit]

theorem C10_error_witness :
    sPend.pending.contains 1 = true ∧
    (Json.obj [("message", Json.str "boom")]).truthy = true ∧
    handleMessage cfgA sPend
      { id := some 1, result := some (Json.str "r"),
        error := some (Json.obj [("message", Json.str "boom")]) }
      = { sPend with pending := sPend.pending.filter (fun x => x != 1),
                     trace := sPend.trace ++
                       [.outcome 1 (.rejectedError (jsOrElse
                          ((Json.obj [("message", Json.str "boom")]).getField "message")
                          (Json.str "Unknown error")))] } :=
  ⟨rfl, rfl, C10_error_rejects cfgA sPend 1 (some (Json.str "r"))
    (Json.obj [("message", Json.str "boom")]) rfl rfl⟩

/-- Claim C6: when a pending request issued by `callTool` resolves
successfully, the hook additionally invokes the registered `onToolResult`
callback — the same callback fed by unsolicited `tool-result` notifications —
exactly once, with exactly the result the call resolved with: the step appends
one `resolved` settlement followed by one `cbToolResult` carrying the same
payload. -/
theorem C6_result_callback_on_resolve (cfg : Config) (s : HostState) (i : Int)
    (r : Json) (hp : s.pending.contains i = true)
    (hct : s.callToolIds.contains i = true) (hcb : cfg.hasToolResult = true) :
    handleMessage cfg s { id := some i, result := some r }
      = { s with pending := s.pending.filter (fun x => x != i),
                 trace := s.trace ++ [.outcome i (.resolved (some r)),
                                      .cbToolResult (some r)] } := by
  have hmem : i ∈ s.pending := by simpa using hp
  have h1 : handleMessage cfg s { id := some i, result := some r }
      = resolveWith cfg { s with pending := s.pending.filter (fun x => x != i) }
          i (some r) := by
    unfold handleMessage handleResponse
    simp [isResponseShape, hmem]
  have hmem2 : i ∈ s.callToolIds := by simpa using hct
  rw [h1, resolveWith_eq]
  simp [hct, hcb, hmem2]

theorem C6_result_callback_witness :
    sPend.pending.contains 1 = true ∧
    sPend.callToolIds.contains 1 = true ∧
    cfgA.hasToolResult = true ∧
    handleMessage cfgA sPend
      { id := some 1, result := some (Json.obj [("structuredContent", Json.obj [])]) }
      = { sPend with pending := sPend.pending.filter (fun x => x != 1),
                     trace := sPend.trace ++
                       [.outcome 1 (.resolved (some (Json.obj
                          [("structuredContent", Json.obj [])]))),
                        .cbToolResult (some (Json.obj
                          [("structuredContent", Json.obj [])]))] } :=
  ⟨rfl, rfl, rfl, C6_result_callback_on_resolve cfgA sPend 1
    (Json.obj [("structuredContent", Json.obj [])]) rfl rfl rfl⟩

/-- Claim C3: a request that receives no response within the 30000-unit
timeout window is removed from the pending map and rejected exactly once with
the timeout condition — the trace gains exactly one `rejectedTimeout`
settlement — purely by the passage of time, with no transport delivery; and a
late response carrying the same id afterwards is ignored (no state change). -/
theorem C3_timeout_rejects_once (cfg : Config) (s : HostState) (n : String)
    (a : Json) (ht : s.timers = [])
    (dt : Nat) (hdt : timeoutMs ≤ dt) (r e : Option Json) :
    (run cfg s [.callToolReq n a, .elapse dt]).pending.contains s.nextRequestId = false ∧
    (run cfg s [.callToolReq n a, .elapse dt]).trace
      = s.trace ++ [.post (.request s.nextRequestId "tools/call" (toolCallParams n a)),
                    .outcome s.nextRequestId .rejectedTimeout] ∧
    handleMessage cfg (run cfg s [.callToolReq n a, .elapse dt])
        { id := some s.nextRequestId, result := r, error := e }
      = run cfg s [.callToolReq n a, .elapse dt] := by
  have hdue : s.now + timeoutMs ≤ s.now + dt := Nat.add_le_add_left hdt s.now
  have hrun : run cfg s [.callToolReq n a, .elapse dt]
      = { s with nextRequestId := s.nextRequestId + 1,
                 pending := (s.pending ++ [s.nextRequestId]).filter
                   (fun x => x != s.nextRequestId),
                 callToolIds := s.callToolIds ++ [s.nextRequestId],
                 timers := [],
                 now := s.now + dt,
                 trace := s.trace ++
                   [.post (.request s.nextRequestId "tools/call" (toolCallParams n a)),
                    .outcome s.nextRequestId .rejectedTimeout] } := by
    simp [run, step, callToolStep, sendRequestStep, elapseStep, ht, hdue,
      timeoutFire, List.filter]
  have hgone : ((s.pending ++ [s.nextRequestId]).filter
      (fun x => x != s.nextRequestId)).contains s.nextRequestId = false :=
    contains_filter_ne _ _
  refine ⟨?_, ?_, ?_⟩
  · rw [hrun]; exact hgone
  · rw [hrun]
  · rw [hrun]
    exact inbound_settled_noop cfg _ s.nextRequestId r e hgone

theorem C3_timeout_witness :
    initState.timers = [] ∧ timeoutMs ≤ 30000 ∧
    ((run cfgA initState [.callToolReq "todo_list" (Json.obj []),
        .elapse 30000]).pending.contains initState.nextRequestId = false ∧
     (run cfgA initState [.callToolReq "todo_list" (Json.obj []), .elapse 30000]).trace
       = initState.trace ++
           [.post (.request initState.nextRequestId "tools/call"
              (toolCallParams "todo_list" (Json.obj []))),
            .outcome initState.nextRequestId .rejectedTimeout] ∧
     handleMessage cfgA
         (run cfgA initState [.callToolReq "todo_list" (Json.obj []), .elapse 30000])
         { id := some initState.nextRequestId, result := some (Json.str "late"),
           error := none }
       = run cfgA initState [.callToolReq "todo_list" (Json.obj []), .elapse 30000]) :=
  ⟨rfl, by decide, C3_timeout_rejects_once cfgA initState "todo_list" (Json.obj [])
    rfl 30000 (by decide) (some (Json.str "late")) none⟩

/-- Claim C5: an inbound `ui/initialize` carrying `hostContext.theme = "light"`
makes the layer (1) apply the light theme (document attribute and theme
callback), (2) post exactly one response correlated to the request's id whose
payload is the fixed protocol version, empty capability set and client
name/version, (3) post exactly one `ui/notifications/initialized`
notification, and (4) become Ready — in that order in the trace, with
`isReady` set at the end. -/
theorem C5_handshake_sequence (cfg : Config) (s : HostState) (rid : Option Int) :
    step cfg s (.inbound (some { id := rid, method := some "ui/initialize",
                                 params := some (Json.obj
                                   [("hostContext",
                                     Json.obj [("theme", Json.str "light")])]) }))
      = { s with isReady := true,
                 trace := s.trace
                   ++ [TraceEvent.setThemeAttr "light"]
                   ++ (if cfg.hasThemeChange then [TraceEvent.cbThemeChange "light"]
                       else [])
                   ++ [.post (.response rid (initResult cfg)),
                       .post (.toHost "ui/notifications/initialized" (Json.obj [])),
                       .setReady true] } := by
  cases hc : cfg.hasThemeChange <;>
    simp [step, handleMessage, isResponseShape, handleInit, Json.getField,
      Json.truthy, applyTheme, themeTrail, normTheme, emit, hc, List.append_assoc]

/-- Claim C7: an inbound `ui/resource-teardown` request with a registered
cleanup hook always produces exactly one success response (empty result)
correlated to the request's id, emitted after the hook settles — whether the
hook fulfils or rejects (the configuration's `teardownThrows` flag is
universally quantified and absent from the conclusion). -/
theorem C7_teardown_always_acks (cfg : Config) (s : HostState) (i : Int)
    (p : Option Json) (h : cfg.hasTeardown = true) :
    step cfg s (.inbound (some { id := some i,
                                 method := some "ui/resource-teardown",
                                 params := p }))
      = { s with trace := s.trace ++
          [TraceEvent.cbTeardown, .post (.response (some i) (Json.obj []))] } := by
  cases ht : cfg.teardownThrows <;>
    simp [step, handleMessage, isResponseShape, handleTeardownReq, emit, h, ht,
      List.append_assoc]

theorem C7_teardown_witness :
    cfgThrow.hasTeardown = true ∧
    step cfgThrow initState (.inbound (some { id := some 7,
                                              method := some "ui/resource-teardown",
                                              params := none }))
      = { initState with trace := initState.trace ++
          [TraceEvent.cbTeardown, .post (.response (some 7) (Json.obj []))] } :=
  ⟨rfl, C7_teardown_always_acks cfgThrow initState 7 none rfl⟩

/-- Claim C8 counterexample: in the initial state — no `ui/initialize` has
been handled, `isReady` is false, so the session is Uninitialized — an inbound
`tool-result` notification is still processed: the registered `onToolResult`
callback fires.  The handler contains no session-state gate, so the claimed
"no effect while Uninitialized" is false. -/
theorem C8_counterexample :
    initState.isReady = false ∧
    (step cfgA initState (.inbound (some
        { method := some "ui/notifications/tool-result",
          params := some (Json.obj [("isError", Json.bool true)]) }))).trace
      = [TraceEvent.cbToolResult (some (Json.obj [("isError", Json.bool true)]))] :=
  ⟨rfl, rfl⟩

/-- Claim C8 (amended): the `tool-input`, `tool-result` and
`host-context-changed` notification branches perform no session-state gating —
they run identically in every state, including before the handshake: the
state `s` (and in particular `s.isReady`) is universally quantified and the
effect is the same callback invocation / side effect regardless. -/
theorem C8_amended_notifications_ungated (cfg : Config) (s : HostState)
    (p : Json) (h1 : cfg.hasToolInput = true) (h2 : cfg.hasToolResult = true)
    (h3 : cfg.hasThemeChange = true) :
    step cfg s (.inbound (some
        { method := some "ui/notifications/tool-input",
          params := some (Json.obj [("arguments", Json.obj [("text", p)])]) }))
      = emit s (.cbToolInput (Json.obj [("text", p)])) ∧
    step cfg s (.inbound (some
        { method := some "ui/notifications/tool-result",
          params := some (Json.obj [("content", Json.arr [p])]) }))
      = emit s (.cbToolResult (some (Json.obj [("content", Json.arr [p])]))) ∧
    step cfg s (.inbound (some
        { method := some "ui/notifications/host-context-changed",
          params := some (Json.obj [("theme", Json.str "purple")]) }))
      = { s with trace := s.trace ++
          [TraceEvent.setThemeAttr "dark", TraceEvent.cbThemeChange "dark"] } := by
  refine ⟨?_, ?_, ?_⟩
  · simp [step, handleMessage, isResponseShape, Json.getField, jsOrElse,
      Json.truthy, h1]
  · simp [step, handleMessage, isResponseShape, jsOrElse, Json.truthy, h2]
  · simp [step, handleMessage, isResponseShape, handleContextChanged,
      Json.getField, Json.truthy, applyTheme, themeTrail, normTheme, h3]

theorem C8_amended_witness :
    initState.isReady = false ∧ cfgA.hasToolInput = true ∧
    cfgA.hasToolResult = true ∧ cfgA.hasThemeChange = true ∧
    (step cfgA initState (.inbound (some
        { method := some "ui/notifications/tool-input",
          params := some (Json.obj
            [("arguments", Json.obj [("text", Json.str "milk")])]) }))
      = emit initState (.cbToolInput (Json.obj [("text", Json.str "milk")])) ∧
     step cfgA initState (.inbound (some
        { method := some "ui/notifications/tool-result",
          params := some (Json.obj [("content", Json.arr [Json.str "milk"])]) }))
      = emit initState (.cbToolResult (some (Json.obj
          [("content", Json.arr [Json.str "milk"])]))) ∧
     step cfgA initState (.inbound (some
        { method := some "ui/notifications/host-context-changed",
          params := some (Json.obj [("theme", Json.str "purple")]) }))
      = { initState with trace := initState.trace ++
          [TraceEvent.setThemeAttr "dark", TraceEvent.cbThemeChange "dark"] }) :=
  ⟨rfl, rfl, rfl, rfl,
    C8_amended_notifications_ungated cfgA initState (Json.str "milk") rfl rfl rfl⟩

/-- Claim C9: for any theme value received in a host context update, the
applied document attribute (and callback value) is exactly "light" when the
value is the string "light" and "dark" for every other value; and of the
style-variable entries received, exactly those with a truthy value are set as
named properties, in order, while falsy-valued entries are skipped. -/
theorem C9_theme_normalization_styles (cfg : Config) (s : HostState) (t : Json)
    (vars : List (String × Json)) (ht : t.truthy = true) :
    (step cfg s (.inbound (some
        { method := some "ui/notifications/host-context-changed",
          params := some (Json.obj
            [("theme", t),
             ("styles", Json.obj [("variables", Json.obj vars)])]) }))
      = { s with trace := s.trace
          ++ [TraceEvent.setThemeAttr (normTheme t)]
          ++ (if cfg.hasThemeChange then [TraceEvent.cbThemeChange (normTheme t)]
              else [])
          ++ (vars.filter (fun kv => kv.2.truthy)).map (fun kv => TraceEvent.setStyleProp kv.1 kv.2) }) ∧
    (t = Json.str "light" → normTheme t = "light") ∧
    (t ≠ Json.str "light" → normTheme t = "dark") := by
  refine ⟨?_, ?_, ?_⟩
  · cases hc : cfg.hasThemeChange <;>
      simp [step, handleMessage, isResponseShape, handleContextChanged,
        Json.getField, Json.entries, applyTheme,
        applyStyleVariables, themeTrail, styleTrail, ht, hc, truthy_obj,
        List.append_assoc]
  · intro hl; subst hl; rfl
  · intro hne
    cases t with
    | str v =>
      have : v ≠ "light" := fun hv => hne (by rw [hv])
      simp [normTheme, this]
    | null => rfl
    | bool b => rfl
    | num n => rfl
    | arr l => rfl
    | obj f => rfl

theorem C9_theme_witness :
    (Json.str "purple").truthy = true ∧
    ((step cfgA initState (.inbound (some
        { method := some "ui/notifications/host-context-changed",
          params := some (Json.obj
            [("theme", Json.str "purple"),
             ("styles", Json.obj [("variables", Json.obj
               [("--fg", Json.str "red"), ("--bg", Json.str "")])])]) }))
      = { initState with trace := initState.trace
          ++ [TraceEvent.setThemeAttr (normTheme (Json.str "purple"))]
          ++ (if cfgA.hasThemeChange then
                [TraceEvent.cbThemeChange (normTheme (Json.str "purple"))] else [])
          ++ ([("--fg", Json.str "red"), ("--bg", Json.str "")].filter (fun kv => kv.2.truthy)).map (fun kv => TraceEvent.setStyleProp kv.1 kv.2) }) ∧
     (Json.str "purple" = Json.str "light" →
        normTheme (Json.str "purple") = "light") ∧
     (Json.str "purple" ≠ Json.str "light" →
        normTheme (Json.str "purple") = "dark")) :=
  ⟨rfl, C9_theme_normalization_styles cfgA initState (Json.str "purple")
    [("--fg", Json.str "red"), ("--bg", Json.str "")] rfl⟩
